import Mathlib

/-!
Shallow embedding of the kty dashboard runtime, translated from the
repository sources:

- `src/dashboard.rs` — the `Mode` state machine, the render loop `run`,
  and the per-event helper `draw_ui`;
- `src/widget/view.rs` — `Element`, `View`, `View::dispatch`,
  `View::layers`, `View::draw`, `View::push`, `View::pop`;
- `src/widget/apex.rs` — `Apex::dispatch` (error-overlay push);
- `src/cli/dashboard.rs` — the local `Store<K>` (`new`, `state`,
  `loading`, `Drop`).

Widget trees are heterogeneous trait objects in the source; here a widget
is an abstract type `W` together with a dispatch function
`W → Event → Except Report (W × Broadcast R)`, which models
`dispatch(&mut self, event, ..) -> Result<Broadcast>` (the `&mut self`
mutation becomes the returned `W`; the pass-through `buffer`/`area`
arguments, which `View` forwards unchanged, are omitted).  Terminal
drawing is modelled by counting `term.draw` calls.
-/

namespace Kty

/-- Keypresses relevant to the dashboard (`Keypress` in the crate's event
module, which is not among the provided sources; the two variants named by
the sources are `EndOfText` and `Escape`, everything else is collapsed
into `Printable`). -/
inductive Keypress where
  | EndOfText
  | Escape
  | Printable (c : Char)
deriving DecidableEq

/-- Terminal rectangle (ratatui `Rect`). -/
structure Rect where
  x : Nat
  y : Nat
  width : Nat
  height : Nat
deriving DecidableEq

/-- The error payload of a `Finished` event (`StringError` in the crate's
event module): a formatted message. -/
structure StringError where
  msg : String
deriving DecidableEq

/-- Model of `eyre::Report`: the message of a dispatch/draw/IO error. -/
abbrev Report := String

/-- Raw input chunk (`Input { key, .. }`): the fields other than `key` are
never inspected by the sources shown, so only the keypress is kept. -/
structure Input where
  key : Keypress
deriving DecidableEq

instance {ε α : Type} [DecidableEq ε] [DecidableEq α] : DecidableEq (Except ε α) := fun a b =>
  match a, b with
  | .error e, .error f =>
    if h : e = f then .isTrue (by subst h; rfl)
    else .isFalse (fun hc => by cases hc; exact h rfl)
  | .ok x, .ok y =>
    if h : x = y then .isTrue (by subst h; rfl)
    else .isFalse (fun hc => by cases hc; exact h rfl)
  | .error _, .ok _ => .isFalse (fun hc => by cases hc)
  | .ok _, .error _ => .isFalse (fun hc => by cases hc)

/-- Modelled from the spec: the `Event` enum of the crate's event module
(not among the provided sources), §3: `Keypress`, `Render` (timer tick),
`Resize(area)`, `Input(raw input)`, `Finished(Result)` (raw-mode
completion), `Tunnel(Result)`. -/
inductive Event where
  | Keypress (k : Keypress)
  | Render
  | Resize (area : Rect)
  | Input (i : Input)
  | Finished (r : Except StringError Unit)
  | Tunnel (r : Except StringError Unit)
deriving DecidableEq

/-- Modelled from the spec: the `Broadcast` enum of the crate's event
module (not among the provided sources), §3: `Ignored`, `Consumed`,
`Exited`, `Raw(widget)`; `R` is the type of the carried raw widget. -/
inductive Broadcast (R : Type) where
  | Ignored
  | Consumed
  | Exited
  | Raw (w : R)
deriving DecidableEq

/-- `dispatch(&mut self, event, buffer, area) -> Result<Broadcast>` for an
abstract widget type `W`: the updated widget state is returned alongside
the broadcast. -/
abbrev DispatchFn (W R : Type) := W → Event → Except Report (W × Broadcast R)

/-- `Element` from src/widget/view.rs: a widget plus its `terminal` flag
(`#[builder(default)]`, so `false` unless set). -/
structure Element (W : Type) where
  widget : W
  terminal : Bool
deriving DecidableEq

/-- `Element::zindex` delegates to the wrapped widget. -/
def Element.zindex {W : Type} (zidx : W → Nat) (el : Element W) : Nat :=
  zidx el.widget

/-- `View` from src/widget/view.rs: an ordered stack of elements
(topmost last) and the `show_all` draw flag. -/
structure View (W : Type) where
  widgets : List (Element W)
  show_all : Bool
deriving DecidableEq

/-- `View::push`: append at the topmost position. -/
def View.push {W : Type} (v : View W) (el : Element W) : View W :=
  { v with widgets := v.widgets ++ [el] }

/-- `View::pop`: remove the topmost element, returning its widget. -/
def View.pop {W : Type} (v : View W) : View W × Option W :=
  match v.widgets.getLast? with
  | none => (v, none)
  | some el => ({ v with widgets := v.widgets.dropLast }, some el.widget)

/-- Outcome of walking the element stack during `View::dispatch`:
`cont ws` means every element visited so far returned `Ignored` (the walk
continues below), `done ws b` means propagation stopped and the `View`
returns `b` to its caller with `ws` as the remaining stack. -/
inductive StackOut (W R : Type) where
  | cont (ws : List (Element W))
  | done (ws : List (Element W)) (b : Broadcast R)
deriving DecidableEq

/-- The body of `View::dispatch` (src/widget/view.rs lines 88-100): visit
elements topmost (last) first; the first non-`Ignored` broadcast stops the
walk.  The `propagate!` macro body is not among the provided sources; its
behaviour is modelled from the spec, §4.3: on `Exited` run the handler
block — return `Exited` to the caller if the element is `terminal`,
otherwise remove exactly that element and return `Ignored` (absorbed) —
and return any other non-`Ignored` broadcast unchanged.  The list is
stored bottom-first, so the recursion dispatches the tail (the elements
stacked above the head) before the head. -/
def dispatchStack {W R : Type} (disp : DispatchFn W R) (ev : Event) :
    List (Element W) → Except Report (StackOut W R)
  | [] => .ok (.cont [])
  | el :: rest =>
    match dispatchStack disp ev rest with
    | .error e => .error e
    | .ok (.done rest' b) => .ok (.done (el :: rest') b)
    | .ok (.cont rest') =>
      match disp el.widget ev with
      | .error e => .error e
      | .ok (w', b) =>
        match b with
        | .Ignored => .ok (.cont ({ el with widget := w' } :: rest'))
        | .Exited =>
          if el.terminal then .ok (.done ({ el with widget := w' } :: rest') .Exited)
          else .ok (.done rest' .Ignored)
        | b => .ok (.done ({ el with widget := w' } :: rest') b)

/-- `View::dispatch` (src/widget/view.rs lines 88-100): if every element
returned `Ignored` the `View` itself returns `Ignored`. -/
def View.dispatch {W R : Type} (disp : DispatchFn W R) (v : View W) (ev : Event) :
    Except Report (View W × Broadcast R) :=
  match dispatchStack disp ev v.widgets with
  | .error e => .error e
  | .ok (.cont ws) => .ok ({ v with widgets := ws }, .Ignored)
  | .ok (.done ws b) => .ok ({ v with widgets := ws }, b)

/-- `chunk_by(|widget| widget.zindex())` from `View::layers`: group the
current element sequence into contiguous runs of equal key,
order-preserving. -/
def chunkBy {α : Type} (k : α → Nat) : List α → List (List α)
  | [] => []
  | x :: xs =>
    match chunkBy k xs with
    | [] => [[x]]
    | [] :: cs => [x] :: [] :: cs
    | (y :: c) :: cs =>
      if k x = k y then (x :: y :: c) :: cs else [x] :: (y :: c) :: cs

/-- The comparison key of a chunk: the key of its first element (the
`chunk_by` group key). -/
def chunkKey {α : Type} (k : α → Nat) : List α → Nat
  | [] => 0
  | x :: _ => k x

/-- One insertion step of the stable sort performed by
`sorted_by(|(a, _), (b, _)| a.cmp(b))` in `View::layers`: a chunk taken
later in the original order goes after every already-placed chunk whose
key is `≤` its own. -/
def insertChunk {α : Type} (k : α → Nat) (c : List α) :
    List (List α) → List (List α)
  | [] => [c]
  | d :: ds =>
    if chunkKey k d ≤ chunkKey k c then d :: insertChunk k c ds
    else c :: d :: ds

/-- The stable sort of chunks by group key from `View::layers`. -/
def sortChunks {α : Type} (k : α → Nat) (cs : List (List α)) : List (List α) :=
  cs.foldl (fun acc c => insertChunk k c acc) []

/-- `View::layers` (src/widget/view.rs lines 65-84): contiguous runs of
equal z-index, stably sorted by z-index.  The per-layer vertical
`Layout::split` of the draw area (ratatui) does not affect which elements
belong to which layer and is omitted. -/
def View.layers {W : Type} (zidx : W → Nat) (v : View W) : List (List (Element W)) :=
  sortChunks (Element.zindex zidx) (chunkBy (Element.zindex zidx) v.widgets)

/-- The layers actually rendered by `View::draw` (src/widget/view.rs lines
102-120), bottom-to-top: all of them when `show_all`, otherwise only
`tail(1)` — the last (highest z-index) layer. -/
def View.renderedLayers {W : Type} (zidx : W → Nat) (v : View W) :
    List (List (Element W)) :=
  let ls := View.layers zidx v
  if v.show_all then ls else ls.drop (ls.length - 1)

/-- `Mode` from src/dashboard.rs lines 106-110: either the normal widget
tree (`UI`) or an exclusive raw passthrough together with the suspended
widget (`Raw`).  `W` stands for `Box<dyn Widget>`, `R` for
`Box<dyn Raw>`. -/
inductive Mode (W R : Type) where
  | UI (w : W)
  | Raw (r : R) (suspended : W)
deriving DecidableEq

/-- `Mode::raw` (src/dashboard.rs lines 113-117): enter raw mode, keeping
the previously active widget as the suspended one. -/
def Mode.raw {W R : Type} (m : Mode W R) (raw : R) : Mode W R :=
  match m with
  | .UI previous => .Raw raw previous
  | .Raw _ previous => .Raw raw previous

/-- `Mode::ui` (src/dashboard.rs lines 120-125): leave raw mode, restoring
the suspended widget; in `UI` mode this is the identity. -/
def Mode.ui {W R : Type} (m : Mode W R) : Mode W R :=
  match m with
  | .Raw _ previous => .UI previous
  | m => m

/-- Result of `draw_ui` (src/dashboard.rs lines 206-233): the (possibly
mutated) widget, the `Result<Broadcast>` returned to the loop, and the
number of `term.draw` calls performed. -/
structure UIStep (W R : Type) where
  widget : W
  result : Except Report (Broadcast R)
  draws : Nat
deriving DecidableEq

/-- The dispatch-then-draw path of `draw_ui`: `widget.dispatch(ev)` is
recorded (not yet `?`-propagated), then `term.draw` runs exactly once. -/
def dispatchAndDraw {W R : Type} (disp : DispatchFn W R) (widget : W) (ev : Event) :
    UIStep W R :=
  match disp widget ev with
  | .ok (w', b) => ⟨w', .ok b, 1⟩
  | .error e => ⟨widget, .error e, 1⟩

/-- `draw_ui` (src/dashboard.rs lines 206-233): an `Input` whose keypress
is `EndOfText` returns `Exited` before any dispatch or draw; `Render` is
answered with `Ignored` without dispatching; every other event is
dispatched; in all but the `EndOfText` case the widget is then drawn to
the terminal exactly once. -/
def draw_ui {W R : Type} (disp : DispatchFn W R) (widget : W) (ev : Event) :
    UIStep W R :=
  match ev with
  | .Input i =>
    if i.key = Keypress.EndOfText then ⟨widget, .ok .Exited, 0⟩
    else dispatchAndDraw disp widget ev
  | .Render => ⟨widget, .ok .Ignored, 1⟩
  | _ => dispatchAndDraw disp widget ev

/-- One loop iteration's outcome: the next `Mode` and whether the loop
`break`s (`Broadcast::Exited` reached the top of the tree). -/
structure LoopStep (W R : Type) where
  mode : Mode W R
  exit : Bool
deriving DecidableEq

/-- The `match result` at the bottom of the loop body (src/dashboard.rs
lines 185-193): `Exited` breaks, `Raw(widget)` calls `state.raw(widget)`,
anything else leaves the state alone and continues. -/
def applyBroadcast {W R : Type} (m : Mode W R) : Broadcast R → LoopStep W R
  | .Exited => ⟨m, true⟩
  | .Raw rw => ⟨m.raw rw, false⟩
  | _ => ⟨m, false⟩

/-- One iteration of the render loop body after an event has been
received (src/dashboard.rs lines 169-193).  In `UI` mode the event goes
through `draw_ui`.  In `Raw` mode the raw widget's passthrough run
(`draw_raw`, modelled by `runRaw`, its eyre error already formatted into
a `StringError`) is awaited to completion, the suspended widget is
dispatched a synthetic `Finished(result)` event (the `?` on this dispatch
unwinds the loop on error), `state.ui()` restores `UI` mode, and only
then is the resulting broadcast applied. -/
def runStep {W R : Type} (disp : DispatchFn W R)
    (runRaw : R → Except StringError Unit) (m : Mode W R) (ev : Event) :
    Except Report (LoopStep W R) :=
  match m with
  | .UI widget =>
    let s := draw_ui disp widget ev
    match s.result with
    | .error e => .error e
    | .ok result => .ok (applyBroadcast (.UI s.widget) result)
  | .Raw raw_widget current_widget =>
    let raw_result := runRaw raw_widget
    match disp current_widget (.Finished raw_result) with
    | .error e => .error e
    | .ok (w', result) => .ok (applyBroadcast (Mode.ui (.Raw raw_widget w')) result)

/-- How the render loop of `run` ended: the event channel closed
(`rx.recv()` returned `None`), `Broadcast::Exited` reached the top, or a
`?` unwound the loop with an error. -/
inductive RunExit where
  | channelClosed
  | exited
  | failed (e : Report)
deriving DecidableEq

/-- Observable outcome of `run` (src/dashboard.rs lines 148-204): the
final mode and shared window size, how the loop ended, and the cleanup
actually performed after the loop — the `Clear`-rendering `term.draw`,
the cursor reset to the origin, and the message given to
`stdout.shutdown`. -/
structure RunOutcome (W R : Type) where
  mode : Mode W R
  winSize : Rect
  exit : RunExit
  cleared : Bool
  cursorHome : Bool
  shutdownMsg : Option String
deriving DecidableEq

/-- The `Event::Resize` handling at the top of the loop body
(src/dashboard.rs lines 164-167): a resize updates the shared window
size. -/
def winUpdate (ws : Rect) : Event → Rect
  | .Resize area => area
  | _ => ws

/-- The render loop of `run` (src/dashboard.rs lines 148-204) over a
finite schedule of received events (the merged stream of channel events
and render ticks; exhaustion of the schedule models `rx.recv()` returning
`None`, i.e. the input channel closing).  On `break` — channel closed or
`Exited` at the top — the terminal is cleared, the cursor reset to the
origin, and `"exiting..."` written through the output abstraction; a `?`
error return unwinds `run` before any of that cleanup. -/
def runLoop {W R : Type} (disp : DispatchFn W R)
    (runRaw : R → Except StringError Unit) (m : Mode W R) (ws : Rect) :
    List Event → RunOutcome W R
  | [] => ⟨m, ws, .channelClosed, true, true, some "exiting..."⟩
  | ev :: rest =>
    let ws' := winUpdate ws ev
    match runStep disp runRaw m ev with
    | .error e => ⟨m, ws', .failed e, false, false, none⟩
    | .ok st =>
      if st.exit then ⟨st.mode, ws', .exited, true, true, some "exiting..."⟩
      else runLoop disp runRaw st.mode ws' rest

/-- One keyed resource object update as produced by the watch stream the
`Store`'s background task consumes (kube-rs watcher semantics). -/
inductive WatchEvent (K : Type) where
  | applied (key : Nat) (obj : K)
  | deleted (key : Nat)
  | restarted (objs : List (Nat × K))
deriving DecidableEq

/-- Insert-or-replace into the reflector's keyed snapshot. -/
def upsert {K : Type} (key : Nat) (obj : K) :
    List (Nat × K) → List (Nat × K)
  | [] => [(key, obj)]
  | p :: ps => if p.1 = key then (key, obj) :: ps else p :: upsert key obj ps

/-- How `reflect(writer)` applies one watch event to the materialized
snapshot (kube-rs reflector semantics). -/
def applyWatch {K : Type} (st : List (Nat × K)) : WatchEvent K → List (Nat × K)
  | .applied key obj => upsert key obj st
  | .deleted key => st.filter (fun p => p.1 ≠ key)
  | .restarted objs => objs

/-- `Store<K>` from src/cli/dashboard.rs lines 192-204: a background
watch-and-reflect task plus the read-only materialized snapshot.  The
`JoinHandle` is modelled by `taskAlive`: `JoinHandle::abort` cancels the
task at its next suspension point, after which it applies no further
watch events. -/
structure StoreM (K : Type) where
  taskAlive : Bool
  reader : List (Nat × K)
deriving DecidableEq

/-- `Store::new` (src/cli/dashboard.rs lines 218-231): returns
immediately with an empty snapshot and the background task running. -/
def StoreM.new (K : Type) : StoreM K := ⟨true, []⟩

/-- `Store::state` (src/cli/dashboard.rs lines 233-235): the current
snapshot, a total read that never fails. -/
def StoreM.state {K : Type} (s : StoreM K) : List K :=
  s.reader.map Prod.snd

/-- `Store::loading` (src/cli/dashboard.rs lines 241-243): the source
returns the constant `false`. -/
def StoreM.loading {K : Type} (_ : StoreM K) : Bool :=
  false

/-- The `Drop` impl for `Store` (src/cli/dashboard.rs lines 246-259):
`self.task.abort()`. -/
def StoreM.drop {K : Type} (s : StoreM K) : StoreM K :=
  { s with taskAlive := false }

/-- One step of the background task: a watch event mutates the snapshot
only while the task has not been aborted. -/
def StoreM.stepWatch {K : Type} (s : StoreM K) (ev : WatchEvent K) : StoreM K :=
  if s.taskAlive then { s with reader := applyWatch s.reader ev } else s

/-- The background task consuming a whole sequence of watch events. -/
def StoreM.stepWatchAll {K : Type} (s : StoreM K) (evs : List (WatchEvent K)) :
    StoreM K :=
  evs.foldl StoreM.stepWatch s

/-- The children of the root `Apex` view (src/widget/apex.rs lines
31-66): the animated tab container (the content), the `Tunnel` status
widget, and any `Error` overlays pushed later.  Their internal structure
is irrelevant here; only identity and z-index matter. -/
inductive ApexChild where
  | content
  | tunnelStatus
  | errorOverlay (e : StringError)
deriving DecidableEq

/-- Modelled from the spec: the z-indices of the root view's children.
The widgets behind them are not among the provided sources; §4.2 gives
the default z-index 0 and says overlays draw higher/on top. -/
def ApexChild.zindex : ApexChild → Nat
  | .content => 0
  | .tunnelStatus => 0
  | .errorOverlay _ => 2

/-- Modelled from the spec: the dispatch of the root view's children for
the completion/notification events considered here — none of them claims
a `Finished`/`Tunnel` notification, so each returns `Ignored` and the
event propagates (§4.3); the user-visible overlay push is done by the
root (§7(c)). -/
def apexChildDispatch : DispatchFn ApexChild Unit :=
  fun w _ => .ok (w, .Ignored)

/-- `Apex` (src/widget/apex.rs line 26-28): a struct holding the root
`View`, built with `show_all(true)`. -/
structure ApexM where
  view : View ApexChild
deriving DecidableEq

/-- The `Error` overlay element pushed by `Apex::dispatch`
(`Error::from(err.message()).boxed().into()`, terminal defaulting to
`false` via `From<BoxWidget>`). -/
def errorElement (e : StringError) : Element ApexChild :=
  ⟨.errorOverlay e, false⟩

/-- `Apex::dispatch` (src/widget/apex.rs lines 69-88): pushes an error
overlay onto the view for a `Tunnel(Err(..))` notification, then
delegates to `View::dispatch`.  Modelled from the spec: the user-visible
handling of a raw-passthrough failure delivered as `Finished(Err(..))` to
the resumed widget — implemented by widget code not among the provided
sources — likewise pushes an error overlay onto the View (§7(c), §8). -/
def Apex.dispatch : DispatchFn ApexM Unit := fun a ev =>
  let v :=
    match ev with
    | .Tunnel (.error e) => a.view.push (errorElement e)
    | .Finished (.error e) => a.view.push (errorElement e)
    | _ => a.view
  match View.dispatch apexChildDispatch v ev with
  | .error er => .error er
  | .ok (v', b) => .ok (⟨v'⟩, b)

/-- The relation between an element and its state after a dispatch that
returned `Ignored`: same terminal flag, widget state updated by the
dispatch. -/
def IgnoresTo {W R : Type} (disp : DispatchFn W R) (ev : Event)
    (el el' : Element W) : Prop :=
  el'.terminal = el.terminal ∧ disp el.widget ev = .ok (el'.widget, Broadcast.Ignored)

/-! ### Concrete instances used to evaluate the model -/

/-- A concrete widget universe for evaluation: widget state is a `Nat`;
widget `0` answers `Escape` with `Exited`, every other widget ignores the
event and bumps its state. -/
def dispEx : DispatchFn Nat Nat := fun w ev =>
  match ev with
  | .Keypress .Escape =>
    if w = 0 then .ok (w, .Exited) else .ok (w + 1, .Ignored)
  | _ => .ok (w, .Ignored)

/-- A concrete widget that requests a raw takeover on `Escape`. -/
def dispRawEx : DispatchFn Nat Nat := fun w ev =>
  match ev with
  | .Keypress .Escape => .ok (w + 1, .Raw 7)
  | _ => .ok (w, .Ignored)

/-- A concrete widget whose every dispatch requests session exit. -/
def dispExitEx : DispatchFn Nat Nat := fun w _ => .ok (w, .Exited)

/-- A concrete widget whose dispatch always fails (as
`dispatch -> Result<Broadcast>` may). -/
def dispFail : DispatchFn Unit Unit := fun _ _ => .error "io error"

/-- A raw passthrough run that completes successfully. -/
def runRawOk : Nat → Except StringError Unit := fun _ => .ok ()

/-- A raw passthrough run that completes successfully (trivial raw
widget). -/
def runRawOkU : Unit → Except StringError Unit := fun _ => .ok ()

/-- An all-zero terminal rectangle. -/
def rect0 : Rect := ⟨0, 0, 0, 0⟩

/-- The layer-grouping example of the spec, §8: five elements whose
widgets carry an identity and a z-index, pre-sorted to z-indices
`[0,0,0,1,1]`. -/
def layerExample (sa : Bool) : View (Nat × Nat) :=
  ⟨[⟨(0, 0), false⟩, ⟨(1, 0), false⟩, ⟨(2, 0), false⟩,
    ⟨(3, 1), false⟩, ⟨(4, 1), false⟩], sa⟩

/-- A concrete root widget state: the content element (terminal, as built
by `Apex::new`) and the tunnel status element, `show_all` set. -/
def apex0 : ApexM :=
  ⟨⟨[⟨.content, true⟩, ⟨.tunnelStatus, false⟩], true⟩⟩

/-! ### Helper lemmas -/

/-- A run of elements that all answer `Ignored` is walked through
completely, each element keeping its place with its updated state. -/
lemma dispatchStack_all_ignored {W R : Type} (disp : DispatchFn W R) (ev : Event)
    {top top' : List (Element W)}
    (h : List.Forall₂ (IgnoresTo disp ev) top top') :
    dispatchStack disp ev top = .ok (.cont top') := by
  induction h with
  | nil => rfl
  | @cons el el' rest rest' h1 h2 ih =>
    obtain ⟨w1, t1⟩ := el'
    obtain ⟨ht, hd⟩ := h1
    simp only [Element.terminal] at ht
    simp only [Element.widget] at hd
    subst ht
    simp [dispatchStack, ih, hd]

/-- Elements strictly below a stopped walk are kept untouched, in
order. -/
lemma dispatchStack_append_done {W R : Type} (disp : DispatchFn W R) (ev : Event)
    (bot : List (Element W)) {rest rest' : List (Element W)} {b : Broadcast R}
    (h : dispatchStack disp ev rest = .ok (.done rest' b)) :
    dispatchStack disp ev (bot ++ rest) = .ok (.done (bot ++ rest') b) := by
  induction bot with
  | nil => simpa using h
  | cons x xs ih => simp [dispatchStack, ih]

/-- The root view's children never claim an event, so `View::dispatch`
walks the whole stack and leaves it unchanged. -/
lemma dispatchStack_apexChildren (ev : Event) (ws : List (Element ApexChild)) :
    dispatchStack apexChildDispatch ev ws = .ok (.cont ws) := by
  induction ws with
  | nil => rfl
  | cons el rest ih => simp [dispatchStack, ih, apexChildDispatch]

lemma apex_view_dispatch (v : View ApexChild) (ev : Event) :
    View.dispatch apexChildDispatch v ev = .ok (v, .Ignored) := by
  simp [View.dispatch, dispatchStack_apexChildren]

/-- Grouping into contiguous runs loses nothing and preserves order. -/
lemma chunkBy_flatten {α : Type} (k : α → Nat) (ws : List α) :
    (chunkBy k ws).flatten = ws := by
  induction ws with
  | nil => rfl
  | cons x xs ih =>
    simp only [chunkBy]
    cases hc : chunkBy k xs with
    | nil =>
      rw [hc] at ih
      simp only [List.flatten_nil] at ih
      simp [← ih]
    | cons c cs =>
      rw [hc] at ih
      cases c with
      | nil =>
        simp only [List.flatten_cons, List.nil_append] at ih
        simp [← ih]
      | cons y c0 =>
        by_cases hk : k x = k y
        · simp only [if_pos hk]
          rw [← ih]
          simp
        · simp only [if_neg hk]
          rw [← ih]
          simp

/-- Each chunk is a nonempty run of equal z-index. -/
lemma chunkBy_const {α : Type} (k : α → Nat) (ws : List α) :
    ∀ c ∈ chunkBy k ws, c ≠ [] ∧ ∀ x ∈ c, ∀ y ∈ c, k x = k y := by
  induction ws with
  | nil => simp [chunkBy]
  | cons x xs ih =>
    cases hc : chunkBy k xs with
    | nil =>
      intro c hcm
      simp [chunkBy, hc] at hcm
      subst hcm
      refine ⟨by simp, ?_⟩
      simp
    | cons c0 cs =>
      cases c0 with
      | nil => exact absurd (ih [] (by simp [hc])).1 (by simp)
      | cons y c0' =>
        have hhead := ih (y :: c0') (by simp [hc])
        intro c hcm
        by_cases hk : k x = k y
        · simp [chunkBy, hc, hk] at hcm
          rcases hcm with rfl | hmem
          · refine ⟨by simp, ?_⟩
            intro a ha b hb
            have key : ∀ z ∈ x :: y :: c0', k z = k y := by
              intro z hz
              rcases hz with _ | hz
              · exact hk
              · exact hhead.2 z (by assumption) y (by simp)
            rw [key a ha, key b hb]
          · exact ih c (by simp [hc, hmem])
        · simp [chunkBy, hc, hk] at hcm
          rcases hcm with rfl | hmem
          · refine ⟨by simp, ?_⟩
            simp
          · exact ih c (by simp [hc, hmem])

/-- Membership in the flattened chunks survives one stable-sort
insertion. -/
lemma mem_flatten_insertChunk {α : Type} (k : α → Nat) (c : List α)
    (ds : List (List α)) (x : α) :
    x ∈ (insertChunk k c ds).flatten ↔ x ∈ c ∨ x ∈ ds.flatten := by
  induction ds with
  | nil => simp [insertChunk]
  | cons d ds ih =>
    by_cases h : chunkKey k d ≤ chunkKey k c
    · simp only [insertChunk, if_pos h, List.flatten_cons, List.mem_append, ih]
      tauto
    · simp [insertChunk, if_neg h]

/-- Membership in the flattened chunks survives the whole stable sort. -/
lemma mem_flatten_sortChunks_aux {α : Type} (k : α → Nat) (cs : List (List α))
    (acc : List (List α)) (x : α) :
    x ∈ (cs.foldl (fun a c => insertChunk k c a) acc).flatten ↔
      x ∈ acc.flatten ∨ x ∈ cs.flatten := by
  induction cs generalizing acc with
  | nil => simp
  | cons c cs ih =>
    rw [List.foldl_cons, ih, mem_flatten_insertChunk, List.flatten_cons,
      List.mem_append]
    tauto

/-- An element is drawn in some layer exactly when it is in the view's
stack. -/
lemma mem_flatten_layers {W : Type} (zidx : W → Nat) (v : View W) (el : Element W) :
    el ∈ (View.layers zidx v).flatten ↔ el ∈ v.widgets := by
  unfold View.layers sortChunks
  rw [mem_flatten_sortChunks_aux, chunkBy_flatten]
  simp

/-! ### Claims -/

/-- C2: For every View and every event, if an element whose terminal flag
is true returns `Broadcast::Exited` from its dispatch while every element
above it returned `Ignored`, then the View's own dispatch returns
`Broadcast::Exited` to its caller (the element itself stays in place with
its updated state, and the elements below are untouched). -/
theorem view_dispatch_terminal_exit_cascades {W R : Type} (disp : DispatchFn W R)
    (ev : Event) (v : View W) (bot top top' : List (Element W)) (e : Element W)
    (w' : W)
    (hw : v.widgets = bot ++ e :: top)
    (htop : List.Forall₂ (IgnoresTo disp ev) top top')
    (hter : e.terminal = true)
    (hdisp : disp e.widget ev = .ok (w', .Exited)) :
    View.dispatch disp v ev =
      .ok ({ v with widgets := bot ++ { e with widget := w' } :: top' }, .Exited) := by
  have h1 : dispatchStack disp ev (e :: top) =
      .ok (.done ({ e with widget := w' } :: top') .Exited) := by
    simp [dispatchStack, dispatchStack_all_ignored disp ev htop, hdisp, hter]
  have h2 := dispatchStack_append_done disp ev bot h1
  simp [View.dispatch, hw, h2]

theorem view_dispatch_terminal_exit_cascades_witness :
    View.dispatch dispEx
        (⟨[⟨7, false⟩, ⟨0, true⟩, ⟨5, false⟩], false⟩ : View Nat)
        (.Keypress .Escape) =
      .ok (⟨[⟨7, false⟩, ⟨0, true⟩, ⟨6, false⟩], false⟩, .Exited) :=
  view_dispatch_terminal_exit_cascades dispEx (.Keypress .Escape)
    ⟨[⟨7, false⟩, ⟨0, true⟩, ⟨5, false⟩], false⟩
    [⟨7, false⟩] [⟨5, false⟩] [⟨6, false⟩] ⟨0, true⟩ 0
    rfl (.cons ⟨rfl, rfl⟩ .nil) rfl rfl

/-- C3: For every View and every event, if a non-terminal element returns
`Broadcast::Exited` from its dispatch while every element above it
returned `Ignored`, the View removes exactly that element, keeps every
other element in its original order (those above carrying their updated
dispatch state), and returns `Ignored` — not `Exited` — to its own
caller. -/
theorem view_dispatch_nonterminal_exit_absorbed {W R : Type}
    (disp : DispatchFn W R) (ev : Event) (v : View W)
    (bot top top' : List (Element W)) (e : Element W) (w' : W)
    (hw : v.widgets = bot ++ e :: top)
    (htop : List.Forall₂ (IgnoresTo disp ev) top top')
    (hter : e.terminal = false)
    (hdisp : disp e.widget ev = .ok (w', .Exited)) :
    View.dispatch disp v ev =
      .ok ({ v with widgets := bot ++ top' }, .Ignored) := by
  have h1 : dispatchStack disp ev (e :: top) = .ok (.done top' .Ignored) := by
    simp [dispatchStack, dispatchStack_all_ignored disp ev htop, hdisp, hter]
  have h2 := dispatchStack_append_done disp ev bot h1
  simp [View.dispatch, hw, h2]

theorem view_dispatch_nonterminal_exit_absorbed_witness :
    View.dispatch dispEx
        (⟨[⟨7, false⟩, ⟨0, false⟩, ⟨5, false⟩], false⟩ : View Nat)
        (.Keypress .Escape) =
      .ok (⟨[⟨7, false⟩, ⟨6, false⟩], false⟩, .Ignored) :=
  view_dispatch_nonterminal_exit_absorbed dispEx (.Keypress .Escape)
    ⟨[⟨7, false⟩, ⟨0, false⟩, ⟨5, false⟩], false⟩
    [⟨7, false⟩] [⟨5, false⟩] [⟨6, false⟩] ⟨0, false⟩ 0
    rfl (.cons ⟨rfl, rfl⟩ .nil) rfl rfl

/-- C4: `View::draw` groups the current element sequence into contiguous
runs of equal z-index in an order-preserving way (flattening the runs
gives back the sequence, and each run is a nonempty constant-z block);
for elements pre-sorted to z-indices `[0,0,0,1,1]`, show-all mode renders
exactly 2 layers bottom-to-top (the z=0 layer then the z=1 layer), and
modal (default) mode renders only the z=1 layer. -/
theorem view_draw_layer_grouping :
    (∀ (α : Type) (k : α → Nat) (ws : List α), (chunkBy k ws).flatten = ws)
  ∧ (∀ (α : Type) (k : α → Nat) (ws : List α),
      ∀ c ∈ chunkBy k ws, c ≠ [] ∧ ∀ x ∈ c, ∀ y ∈ c, k x = k y)
  ∧ View.renderedLayers Prod.snd (layerExample true) =
      [[⟨(0, 0), false⟩, ⟨(1, 0), false⟩, ⟨(2, 0), false⟩],
       [⟨(3, 1), false⟩, ⟨(4, 1), false⟩]]
  ∧ View.renderedLayers Prod.snd (layerExample false) =
      [[⟨(3, 1), false⟩, ⟨(4, 1), false⟩]] := by
  refine ⟨fun α k ws => chunkBy_flatten k ws, fun α k ws => chunkBy_const k ws,
    ?_, ?_⟩ <;> rfl

theorem view_draw_layer_grouping_witness :
    ([0, 0] ≠ ([] : List Nat) ∧ ∀ x ∈ [0, 0], ∀ y ∈ [0, 0], id x = id y)
  ∧ View.renderedLayers Prod.snd (layerExample false) =
      [[⟨(3, 1), false⟩, ⟨(4, 1), false⟩]] :=
  ⟨view_draw_layer_grouping.2.1 Nat id [0, 0, 1] [0, 0] (by decide),
   view_draw_layer_grouping.2.2.2⟩

/-- C1: The `Mode` machine has exactly two states.  In `UI(widget)`, a
dispatch returning `Broadcast::Raw(rw)` moves to `Raw(rw, widget)` with
the previously active widget (in its post-dispatch state) preserved as
the suspended one, and no other broadcast leaves `UI`.  In
`Raw(raw, suspended)`, once the passthrough run completes — with success
or failure alike — the machine returns to `UI(suspended)`, the raw widget
is discarded, and the suspended widget has already received the synthetic
`Finished(result)` event (its dispatch on that event is the only dispatch
of the step, and its updated state is what lands in `UI`); the only way
back into `Raw` is that very `Finished` dispatch itself broadcasting
`Raw`, i.e. a fresh `UI → Raw` transition after the restoration. -/
theorem mode_state_machine_transitions {W R : Type} (disp : DispatchFn W R)
    (runRaw : R → Except StringError Unit) :
    (∀ (w w' : W) (ev : Event) (rw : R) (n : Nat),
        draw_ui disp w ev = ⟨w', .ok (.Raw rw), n⟩ →
        runStep disp runRaw (.UI w) ev = .ok ⟨.Raw rw w', false⟩)
  ∧ (∀ (w w' : W) (ev : Event) (n : Nat),
        draw_ui disp w ev = ⟨w', .ok .Exited, n⟩ →
        runStep disp runRaw (.UI w) ev = .ok ⟨.UI w', true⟩)
  ∧ (∀ (w w' : W) (ev : Event) (b : Broadcast R) (n : Nat),
        draw_ui disp w ev = ⟨w', .ok b, n⟩ → b = .Ignored ∨ b = .Consumed →
        runStep disp runRaw (.UI w) ev = .ok ⟨.UI w', false⟩)
  ∧ (∀ (r : R) (s s' : W) (ev : Event) (b : Broadcast R),
        disp s (.Finished (runRaw r)) = .ok (s', b) →
        ((b = .Ignored ∨ b = .Consumed →
            runStep disp runRaw (.Raw r s) ev = .ok ⟨.UI s', false⟩)
        ∧ (b = .Exited →
            runStep disp runRaw (.Raw r s) ev = .ok ⟨.UI s', true⟩)
        ∧ (∀ rw : R, b = .Raw rw →
            runStep disp runRaw (.Raw r s) ev = .ok ⟨.Raw rw s', false⟩))) := by
  refine ⟨?_, ?_, ?_, ?_⟩
  · intro w w' ev rw n h
    simp [runStep, h, applyBroadcast, Mode.raw]
  · intro w w' ev n h
    simp [runStep, h, applyBroadcast]
  · intro w w' ev b n h hb
    rcases hb with rfl | rfl <;> simp [runStep, h, applyBroadcast]
  · intro r s s' ev b h
    refine ⟨?_, ?_, ?_⟩
    · intro hb
      rcases hb with rfl | rfl <;> simp [runStep, h, applyBroadcast, Mode.ui]
    · intro hb
      subst hb
      simp [runStep, h, applyBroadcast, Mode.ui]
    · intro rw hb
      subst hb
      simp [runStep, h, applyBroadcast, Mode.ui, Mode.raw]

theorem mode_state_machine_transitions_witness :
    runStep dispRawEx runRawOk (Mode.UI 0) (Event.Keypress Keypress.Escape) =
      .ok ⟨Mode.Raw 7 1, false⟩ :=
  (mode_state_machine_transitions dispRawEx runRawOk).1 0 1
    (Event.Keypress Keypress.Escape) 7 1 rfl

/-- C7: An `Input` event whose keypress is end-of-text, received in `UI`
mode, terminates the session: `draw_ui` returns `Broadcast::Exited`
without dispatching the event to the widget tree (the widget state is
untouched for every possible dispatch function, and no draw happens
first), and the render loop exits through its cleanup path. -/
theorem end_of_text_exits_ui {W R : Type} (disp : DispatchFn W R)
    (runRaw : R → Except StringError Unit) (i : Input)
    (h : i.key = Keypress.EndOfText) :
    (∀ w : W, draw_ui disp w (.Input i) = ⟨w, .ok .Exited, 0⟩)
  ∧ (∀ w : W, runStep disp runRaw (.UI w) (.Input i) = .ok ⟨.UI w, true⟩)
  ∧ (∀ (w : W) (ws : Rect) (rest : List Event),
        runLoop disp runRaw (.UI w) ws (.Input i :: rest) =
          ⟨.UI w, ws, .exited, true, true, some "exiting..."⟩) := by
  have hd : ∀ w : W, draw_ui disp w (.Input i) = ⟨w, .ok .Exited, 0⟩ := by
    intro w
    simp [draw_ui, h]
  have hs : ∀ w : W, runStep disp runRaw (.UI w) (.Input i) = .ok ⟨.UI w, true⟩ := by
    intro w
    simp [runStep, hd w, applyBroadcast]
  refine ⟨hd, hs, ?_⟩
  intro w ws rest
  simp [runLoop, hs w, winUpdate]

theorem end_of_text_exits_ui_witness :
    runLoop dispEx runRawOk (Mode.UI 3) rect0 [Event.Input ⟨Keypress.EndOfText⟩] =
      ⟨Mode.UI 3, rect0, .exited, true, true, some "exiting..."⟩ :=
  (end_of_text_exits_ui dispEx runRawOk ⟨Keypress.EndOfText⟩ rfl).2.2 3 rect0 []

/-- C10: In `UI` mode a `Render` tick never reaches the widget tree:
`draw_ui` answers `Ignored` with the widget untouched for every possible
dispatch function — yet it still performs exactly one terminal draw for
every event it handles, the sole exception being an end-of-text `Input`,
for which it returns `Exited` before any draw occurs. -/
theorem render_tick_not_dispatched {W R : Type} (disp : DispatchFn W R) :
    (∀ w : W, draw_ui disp w .Render = ⟨w, .ok .Ignored, 1⟩)
  ∧ (∀ (w : W) (ev : Event),
        (∀ i : Input, ev = .Input i → i.key ≠ Keypress.EndOfText) →
        (draw_ui disp w ev).draws = 1)
  ∧ (∀ (w : W) (i : Input), i.key = Keypress.EndOfText →
        draw_ui disp w (.Input i) = ⟨w, .ok .Exited, 0⟩) := by
  refine ⟨fun w => rfl, ?_, ?_⟩
  · intro w ev hnot
    have hdd : ∀ ev' : Event, (dispatchAndDraw disp w ev').draws = 1 := by
      intro ev'
      unfold dispatchAndDraw
      rcases hdi : disp w ev' with e | ⟨w', b⟩ <;> simp [hdi]
    cases ev with
    | Input i =>
      have hne := hnot i rfl
      simp [draw_ui, hne, hdd]
    | Render => rfl
    | Keypress k => exact hdd _
    | Resize a => exact hdd _
    | Finished r => exact hdd _
    | Tunnel r => exact hdd _
  · intro w i h
    simp [draw_ui, h]

theorem render_tick_not_dispatched_witness :
    draw_ui dispEx 4 Event.Render = ⟨4, .ok .Ignored, 1⟩
  ∧ (draw_ui dispEx 4 (Event.Keypress Keypress.Escape)).draws = 1
  ∧ draw_ui dispEx 4 (Event.Input ⟨Keypress.EndOfText⟩) = ⟨4, .ok .Exited, 0⟩ :=
  ⟨(render_tick_not_dispatched dispEx).1 4,
   (render_tick_not_dispatched dispEx).2.1 4 (Event.Keypress Keypress.Escape)
     (fun _ hi => nomatch hi),
   (render_tick_not_dispatched dispEx).2.2 4 ⟨Keypress.EndOfText⟩ rfl⟩

/-- C5: `Store::loading` cannot report whether the initial full listing
has completed: the source returns the constant `false` for every store —
including a freshly created one whose initial synchronization has not
landed — contradicting its own comment describing the intended
"loading until the first sync" behaviour. -/
theorem store_loading_always_false :
    (∀ (K : Type) (s : StoreM K), StoreM.loading s = false)
  ∧ StoreM.loading (StoreM.new Unit) = false :=
  ⟨fun _ _ => rfl, rfl⟩

/-- C6: A widget in `UI` mode broadcasting `Raw(tunnel_widget)` switches
the `Mode` to `Raw`; once the tunnel widget's run completes with an
error, the `Mode` returns to `UI`, the suspended root widget receives a
`Finished(Err(..))` event, and an error overlay has been pushed onto the
(show-all) root View, so it is among the layers rendered on the next
draw. -/
theorem raw_error_finishes_with_overlay (r : Unit) (a : ApexM) (e : StringError)
    (ev : Event) (hshow : a.view.show_all = true) :
    (∀ (W R : Type) (disp : DispatchFn W R)
        (runRaw : R → Except StringError Unit) (w w' : W) (ev' : Event) (rw : R)
        (n : Nat),
        draw_ui disp w ev' = ⟨w', .ok (.Raw rw), n⟩ →
        runStep disp runRaw (.UI w) ev' = .ok ⟨.Raw rw w', false⟩)
  ∧ runStep Apex.dispatch (fun _ => .error e) (.Raw r a) ev =
      .ok ⟨.UI ⟨a.view.push (errorElement e)⟩, false⟩
  ∧ errorElement e ∈
      (View.renderedLayers ApexChild.zindex (a.view.push (errorElement e))).flatten := by
  refine ⟨?_, ?_, ?_⟩
  · intro W R disp runRaw w w' ev' rw n h
    simp [runStep, h, applyBroadcast, Mode.raw]
  · simp [runStep, Apex.dispatch, apex_view_dispatch, applyBroadcast, Mode.ui]
  · have hsa : (a.view.push (errorElement e)).show_all = true := by
      simpa [View.push] using hshow
    simp only [View.renderedLayers, hsa, if_true]
    rw [mem_flatten_layers]
    simp [View.push]

theorem raw_error_finishes_with_overlay_witness :
    runStep Apex.dispatch (fun _ => .error ⟨"tunnel failed"⟩)
        (Mode.Raw () apex0) Event.Render =
      .ok ⟨Mode.UI ⟨apex0.view.push (errorElement ⟨"tunnel failed"⟩)⟩, false⟩ :=
  (raw_error_finishes_with_overlay () apex0 ⟨"tunnel failed"⟩ Event.Render rfl).2.1

/-- C8 (as stated) is false: a dispatch (or draw) error unwinds the
render loop through the `?` operator, a third termination mode under
which none of the cleanup happens — here a one-event schedule whose
dispatch fails ends the loop with neither `Exited` at the top nor a
closed channel, and no `"exiting..."` message is written. -/
theorem run_error_skips_cleanup :
    (runLoop dispFail runRawOkU (Mode.UI ()) rect0
        [Event.Keypress Keypress.Escape]).exit = RunExit.failed "io error"
  ∧ (runLoop dispFail runRawOkU (Mode.UI ()) rect0
        [Event.Keypress Keypress.Escape]).shutdownMsg = none
  ∧ (runLoop dispFail runRawOkU (Mode.UI ()) rect0
        [Event.Keypress Keypress.Escape]).cleared = false :=
  ⟨rfl, rfl, rfl⟩

/-- C8 (amended): the render loop terminates when `Broadcast::Exited`
propagates to the top of the tree, when the input event channel closes,
or when a dispatch/draw error unwinds it; in the first two cases — and
exactly those — it clears the terminal, resets the cursor to the origin,
and writes `"exiting..."` through the output abstraction before
returning, while the error unwind returns before this cleanup; any step
that neither breaks nor fails continues the loop. -/
theorem run_loop_termination_behavior {W R : Type} (disp : DispatchFn W R)
    (runRaw : R → Except StringError Unit) :
    (∀ (m : Mode W R) (ws : Rect),
        runLoop disp runRaw m ws [] =
          ⟨m, ws, .channelClosed, true, true, some "exiting..."⟩)
  ∧ (∀ (m : Mode W R) (ws : Rect) (ev : Event) (rest : List Event)
        (m' : Mode W R),
        runStep disp runRaw m ev = .ok ⟨m', true⟩ →
        runLoop disp runRaw m ws (ev :: rest) =
          ⟨m', winUpdate ws ev, .exited, true, true, some "exiting..."⟩)
  ∧ (∀ (m : Mode W R) (ws : Rect) (ev : Event) (rest : List Event) (e : Report),
        runStep disp runRaw m ev = .error e →
        runLoop disp runRaw m ws (ev :: rest) =
          ⟨m, winUpdate ws ev, .failed e, false, false, none⟩)
  ∧ (∀ (m : Mode W R) (ws : Rect) (ev : Event) (rest : List Event)
        (m' : Mode W R),
        runStep disp runRaw m ev = .ok ⟨m', false⟩ →
        runLoop disp runRaw m ws (ev :: rest) =
          runLoop disp runRaw m' (winUpdate ws ev) rest)
  ∧ (∀ (m : Mode W R) (ws : Rect) (evs : List Event),
        ((runLoop disp runRaw m ws evs).cleared = true
          ∧ (runLoop disp runRaw m ws evs).cursorHome = true
          ∧ (runLoop disp runRaw m ws evs).shutdownMsg = some "exiting...")
        ↔ ((runLoop disp runRaw m ws evs).exit = .channelClosed
          ∨ (runLoop disp runRaw m ws evs).exit = .exited)) := by
  refine ⟨fun m ws => rfl, ?_, ?_, ?_, ?_⟩
  · intro m ws ev rest m' h
    simp [runLoop, h]
  · intro m ws ev rest e h
    simp [runLoop, h]
  · intro m ws ev rest m' h
    simp [runLoop, h]
  · intro m ws evs
    induction evs generalizing m ws with
    | nil => simp [runLoop]
    | cons ev rest ih =>
      simp only [runLoop]
      rcases hstep : runStep disp runRaw m ev with e | st
      · simp
      · by_cases hex : st.exit
        · simp [hex]
        · simp only [hex, Bool.false_eq_true, if_false]
          exact ih st.mode (winUpdate ws ev)

theorem run_loop_termination_behavior_witness :
    runLoop dispExitEx runRawOk (Mode.UI 0) rect0
        [Event.Keypress Keypress.Escape] =
      ⟨Mode.UI 0, rect0, .exited, true, true, some "exiting..."⟩ :=
  (run_loop_termination_behavior dispExitEx runRawOk).2.1 (Mode.UI 0) rect0
    (Event.Keypress Keypress.Escape) [] (Mode.UI 0) rfl

/-- C9: Dropping a `Store` handle aborts its background synchronization
task: no sequence of subsequent watch events mutates the materialized
snapshot after the drop, while `state()` on the retained handle still
returns the last snapshot — a total read, not an error. -/
theorem store_drop_stops_mutation :
    (∀ (K : Type) (s : StoreM K) (evs : List (WatchEvent K)),
        StoreM.stepWatchAll (StoreM.drop s) evs = StoreM.drop s)
  ∧ (∀ (K : Type) (s : StoreM K), (StoreM.drop s).state = s.state) := by
  constructor
  · intro K s evs
    have h1 : ∀ ev, StoreM.stepWatch (StoreM.drop s) ev = StoreM.drop s := by
      intro ev
      simp [StoreM.stepWatch, StoreM.drop]
    induction evs with
    | nil => rfl
    | cons ev rest ih =>
      unfold StoreM.stepWatchAll at ih ⊢
      rw [List.foldl_cons, h1]
      exact ih
  · intro K s
    rfl

end Kty
